import Mathlib

/-!
Shallow embedding of the zap2xml-manager acquisition / merge / refresh pipeline
(src/zap2xml_manager: core.py, zap2it.py, scheduler.py, config.py) and proofs of
the specification claims about it.
-/

namespace Zap2xml

/-! ### Strings as Python compares them

Python compares strings lexicographically by code point; sorted(key=...) uses
this comparison on the keys and is stable.  We model the comparison by an
executable code-point lexicographic order on the character data. -/

/-- Lexicographic non-strict order on character lists by code point. -/
def listLe : List Char → List Char → Bool
  | [], _ => true
  | _ :: _, [] => false
  | a :: as, b :: bs =>
    if a.toNat < b.toNat then true
    else if b.toNat < a.toNat then false
    else listLe as bs

/-- Python string comparison: code-point lexicographic. -/
def strLe (s t : String) : Bool := listLe s.data t.data

theorem listLe_refl : ∀ l : List Char, listLe l l = true := by
  intro l
  induction l with
  | nil => rfl
  | cons a as ih => simp [listLe, ih]

theorem strLe_refl (s : String) : strLe s s = true := listLe_refl s.data

theorem listLe_cons {x y : Char} {xs ys : List Char} :
    listLe (x :: xs) (y :: ys) = true ↔
      x.toNat < y.toNat ∨ (x.toNat = y.toNat ∧ listLe xs ys = true) := by
  simp only [listLe]
  by_cases h1 : x.toNat < y.toNat
  · simp [h1]
  · by_cases h2 : y.toNat < x.toNat
    · simp [h1, h2]
      omega
    · have h3 : x.toNat = y.toNat := by omega
      simp [h1, h2, h3]

theorem listLe_total : ∀ a b : List Char, listLe a b = true ∨ listLe b a = true := by
  intro a
  induction a with
  | nil => intro b; left; rfl
  | cons x xs ih =>
    intro b
    cases b with
    | nil => right; rfl
    | cons y ys =>
      rcases Nat.lt_trichotomy x.toNat y.toNat with h | h | h
      · left; exact listLe_cons.2 (Or.inl h)
      · rcases ih ys with h2 | h2
        · left; exact listLe_cons.2 (Or.inr ⟨h, h2⟩)
        · right; exact listLe_cons.2 (Or.inr ⟨h.symm, h2⟩)
      · right; exact listLe_cons.2 (Or.inl h)

theorem listLe_trans :
    ∀ a b c : List Char, listLe a b = true → listLe b c = true → listLe a c = true := by
  intro a
  induction a with
  | nil => intro b c _ _; rfl
  | cons x xs ih =>
    intro b c hab hbc
    cases b with
    | nil => simp [listLe] at hab
    | cons y ys =>
      cases c with
      | nil => simp [listLe] at hbc
      | cons z zs =>
        rcases listLe_cons.1 hab with h1 | ⟨h1, h1r⟩ <;>
          rcases listLe_cons.1 hbc with h2 | ⟨h2, h2r⟩
        · exact listLe_cons.2 (Or.inl (Nat.lt_trans h1 h2))
        · exact listLe_cons.2 (Or.inl (h2 ▸ h1))
        · exact listLe_cons.2 (Or.inl (h1 ▸ h2))
        · exact listLe_cons.2 (Or.inr ⟨h1.trans h2, ih ys zs h1r h2r⟩)

theorem strLe_total (s t : String) : strLe s t = true ∨ strLe t s = true :=
  listLe_total s.data t.data

theorem strLe_trans {s t u : String} (h1 : strLe s t = true) (h2 : strLe t u = true) :
    strLe s u = true :=
  listLe_trans s.data t.data u.data h1 h2

/-- Comparison of elements by a string key, as Python sorted(key=...) does. -/
def keyLe (key : α → String) (x y : α) : Prop := strLe (key x) (key y) = true

instance (key : α → String) : DecidableRel (keyLe key) :=
  fun x y => inferInstanceAs (Decidable (strLe (key x) (key y) = true))

instance (key : α → String) : IsTotal α (keyLe key) :=
  ⟨fun x y => strLe_total (key x) (key y)⟩

instance (key : α → String) : IsTrans α (keyLe key) :=
  ⟨fun _ _ _ h1 h2 => strLe_trans h1 h2⟩

/-! ### XMLTV data model

A parsed XMLTV document as consumed by the merge step in core.py.  A channel
element carries its id attribute and the texts of its display-name children in
document order (possibly empty strings); a programme element carries its channel
and start attributes plus an opaque payload (title) that the merge copies
through untouched. -/

structure Channel where
  id : String
  displayNames : List String
  deriving DecidableEq, Repr

structure Programme where
  channel : String
  start : String
  title : String
  deriving DecidableEq, Repr

/-- A parsed XMLTV document whose root element is tv: the channel elements
followed by the programme elements, as read by ET in core.py. -/
structure Doc where
  channels : List Channel
  programmes : List Programme
  deriving DecidableEq, Repr

/-- Models Python str.casefold as used on the channel names the program
handles (core.py line 138): character-wise lowercasing of the data. -/
def casefold (s : String) : String := String.mk (s.data.map Char.toLower)

/-- The sort key of a channel (core.py lines 136-138): the first display-name
child with non-empty text, falling back to the id attribute, casefolded. -/
def chanName (ch : Channel) : String :=
  match ch.displayNames.filter (fun t => !(t = "")) with
  | [] => casefold ch.id
  | n :: _ => casefold n

/-- Channel ordering used at core.py line 160: compare by casefolded name
only; Python's stable sort keeps insertion order on ties. -/
def nameLe : Channel → Channel → Prop := keyLe chanName

instance : DecidableRel nameLe := inferInstanceAs (DecidableRel (keyLe chanName))
instance : IsTotal Channel nameLe := inferInstanceAs (IsTotal Channel (keyLe chanName))
instance : IsTrans Channel nameLe := inferInstanceAs (IsTrans Channel (keyLe chanName))

/-- Programme ordering used at core.py line 166: compare by the start
attribute (missing start compares as the empty string). -/
def startLe : Programme → Programme → Prop := keyLe Programme.start

instance : DecidableRel startLe := inferInstanceAs (DecidableRel (keyLe Programme.start))
instance : IsTotal Programme startLe := inferInstanceAs (IsTotal Programme (keyLe Programme.start))
instance : IsTrans Programme startLe := inferInstanceAs (IsTrans Programme (keyLe Programme.start))

/-- One step of building the channel map (core.py lines 146-152): skip a
channel whose id attribute is missing or empty, keep only the first occurrence
of each id (a Python dict is insertion ordered). -/
def addChan (acc : List Channel) (ch : Channel) : List Channel :=
  if ch.id = "" then acc
  else if acc.any (fun c => c.id = ch.id) then acc
  else acc ++ [ch]

/-- The channel map built at core.py lines 146-152 over all documents in
order, as its insertion-ordered list of values. -/
def dedupChans (docs : List Doc) : List Channel :=
  (docs.map Doc.channels).flatten.foldl addChan []

/-- The programme elements collected at core.py lines 154-157: all programme
elements of all documents in order, skipping those whose channel attribute is
missing or empty.  The per-channel list of the programme map is the filter of
this list by channel id, in the same order. -/
def allProgs (docs : List Doc) : List Programme :=
  (docs.map Doc.programmes).flatten.filter (fun p => !(p.channel = ""))

/-- The merged channel list (core.py line 160): the deduplicated channels
sorted stably by casefolded name. -/
def mergedChans (docs : List Doc) : List Channel :=
  List.insertionSort nameLe (dedupChans docs)

/-- The per-channel lookup predicate of the programme map. -/
def chanPred (cid : String) : Programme → Bool := fun p => p.channel = cid

/-- The programme block emitted for one channel (core.py lines 165-168): that
channel's collected programmes, sorted stably by start attribute. -/
def progBlock (docs : List Doc) (ch : Channel) : List Programme :=
  List.insertionSort startLe ((allProgs docs).filter (chanPred ch.id))

/-- The merge of core.py lines 128-175: none models the ValueError raised on
an empty path list.  Channels are deduplicated by id (first occurrence wins)
and sorted stably by casefolded name; then, for each channel in that order,
its programmes from all documents are emitted sorted stably by start.
Programmes whose channel id never appears as a channel element are dropped
(the output loop runs over the channel items only).  Python's stable sorted
is modeled by insertion sort with the non-strict key comparison, which is
stable in the same sense. -/
def mergeXmltv (docs : List Doc) : Option Doc :=
  match docs with
  | [] => none
  | _ :: _ => some ⟨mergedChans docs, ((mergedChans docs).map (progBlock docs)).flatten⟩

/-! ### Stability of the sort

Python's sorted is stable.  Insertion sort with a non-strict key comparison
keeps every key-homogeneous subsequence unchanged: filtering by any predicate
that is constant on the sort key commutes with sorting. -/

theorem filter_orderedInsert (key : α → String) (p : α → Bool)
    (hp : ∀ x y, p x = true → p y = true → key x = key y) (a : α) :
    ∀ l : List α,
      (List.orderedInsert (keyLe key) a l).filter p = ((a :: l).filter p) := by
  intro l
  induction l with
  | nil => rfl
  | cons b l ih =>
    by_cases hab : keyLe key a b
    · rw [List.orderedInsert_of_le (keyLe key) l hab]
    · have hoi : List.orderedInsert (keyLe key) a (b :: l) =
        b :: List.orderedInsert (keyLe key) a l := by
        simp [List.orderedInsert, hab]
      rw [hoi]
      by_cases hpb : p b = true
      · by_cases hpa : p a = true
        · exact absurd (show keyLe key a b by
            unfold keyLe
            rw [hp a b hpa hpb]
            exact strLe_refl _) hab
        · simp only [List.filter_cons, hpb, hpa, if_true, if_false, ih]
          simp [List.filter_cons, hpa, hpb]
      · simp only [List.filter_cons, hpb, if_false, ih]
        simp [List.filter_cons, hpb]

theorem filter_insertionSort (key : α → String) (p : α → Bool)
    (hp : ∀ x y, p x = true → p y = true → key x = key y) :
    ∀ l : List α,
      (List.insertionSort (keyLe key) l).filter p = l.filter p := by
  intro l
  induction l with
  | nil => rfl
  | cons a l ih =>
    show (List.orderedInsert (keyLe key) a (List.insertionSort (keyLe key) l)).filter p = _
    rw [filter_orderedInsert key p hp a, List.filter_cons, List.filter_cons, ih]

/-! ### The channel map -/

/-- Invariant of the channel map: ids are pairwise distinct and non-empty. -/
def goodChans (l : List Channel) : Prop :=
  (l.map Channel.id).Nodup ∧ ∀ c ∈ l, ¬ c.id = ""

theorem goodChans_addChan {acc : List Channel} (ch : Channel) (h : goodChans acc) :
    goodChans (addChan acc ch) := by
  by_cases h1 : ch.id = ""
  · simpa [addChan, h1] using h
  · by_cases h2 : acc.any (fun c => c.id = ch.id)
    · simpa [addChan, h1, h2] using h
    · have hrw : addChan acc ch = acc ++ [ch] := by simp [addChan, h1, h2]
      rw [hrw]
      constructor
      · rw [List.map_append]
        refine List.Nodup.append h.1 (List.nodup_singleton _) ?_
        intro x hx hx2
        simp only [List.map_cons, List.map_nil, List.mem_singleton] at hx2
        subst hx2
        rw [List.mem_map] at hx
        obtain ⟨c, hc, hcid⟩ := hx
        have : acc.any (fun c => c.id = ch.id) = true := by
          rw [List.any_eq_true]
          exact ⟨c, hc, by simp [hcid]⟩
        simp [this] at h2
      · intro c hc
        rcases List.mem_append.1 hc with hc | hc
        · exact h.2 c hc
        · simp only [List.mem_singleton] at hc
          subst hc
          exact h1

theorem goodChans_foldl (l : List Channel) :
    ∀ acc : List Channel, goodChans acc → goodChans (l.foldl addChan acc) := by
  induction l with
  | nil => intro acc h; exact h
  | cons x l ih => intro acc h; exact ih (addChan acc x) (goodChans_addChan x h)

theorem goodChans_dedupChans (docs : List Doc) : goodChans (dedupChans docs) :=
  goodChans_foldl _ [] ⟨List.nodup_nil, by intro c hc; simp at hc⟩

/-- Folding an already deduplicated channel list over the channel-map step
reproduces it unchanged. -/
theorem foldl_addChan_eq (l : List Channel) :
    ∀ acc : List Channel, goodChans (acc ++ l) → l.foldl addChan acc = acc ++ l := by
  induction l with
  | nil => intro acc _; simp
  | cons x l ih =>
    intro acc h
    have hx : addChan acc x = acc ++ [x] := by
      have hid : ¬ x.id = "" := h.2 x (by simp)
      have hany : acc.any (fun c => c.id = x.id) = false := by
        rw [List.any_eq_false]
        intro c hc
        simp only [decide_eq_true_eq]
        intro heq
        have hnd := h.1
        rw [List.map_append, List.nodup_append] at hnd
        exact hnd.2.2 (List.mem_map_of_mem Channel.id hc) (by simp [heq])
      simp [addChan, hid, hany]
    rw [List.foldl_cons, hx, ih (acc ++ [x]) (by simpa using h)]
    simp

theorem goodChans_perm {l₁ l₂ : List Channel} (h : List.Perm l₁ l₂) (hg : goodChans l₂) :
    goodChans l₁ :=
  ⟨((h.map Channel.id).nodup_iff).2 hg.1, fun c hc => hg.2 c (h.mem_iff.1 hc)⟩

theorem goodChans_mergedChans (docs : List Doc) : goodChans (mergedChans docs) :=
  goodChans_perm (List.perm_insertionSort nameLe (dedupChans docs)) (goodChans_dedupChans docs)

/-! ### Programme blocks -/

theorem progBlock_mem {docs : List Doc} {ch : Channel} {q : Programme}
    (h : q ∈ progBlock docs ch) : q.channel = ch.id := by
  unfold progBlock at h
  have h2 := (List.perm_insertionSort startLe _).mem_iff.1 h
  have h3 := List.mem_filter.1 h2
  simpa [chanPred] using h3.2

/-- Filtering the concatenation of per-channel blocks by a predicate that only
holds on one channel's id keeps exactly that channel's block (channel ids are
pairwise distinct). -/
theorem filter_flatten_blocks (f : Channel → List Programme) (p : Programme → Bool) :
    ∀ chs : List Channel,
      (∀ c ∈ chs, ∀ q ∈ f c, q.channel = c.id) →
      (chs.map Channel.id).Nodup →
      ∀ ch ∈ chs, (∀ q, p q = true → q.channel = ch.id) →
      ((chs.map f).flatten).filter p = (f ch).filter p := by
  intro chs
  induction chs with
  | nil => intro _ _ ch hch; exact absurd hch (List.not_mem_nil ch)
  | cons c rest ih =>
    intro hmem hnd ch hch hp
    rw [List.map_cons, List.flatten_cons, List.filter_append]
    have hndr : (rest.map Channel.id).Nodup := (List.nodup_cons.1 hnd).2
    have hcid : c.id ∉ rest.map Channel.id := (List.nodup_cons.1 hnd).1
    rcases List.mem_cons.1 hch with hch | hch
    · subst hch
      have hrest : ((rest.map f).flatten).filter p = [] := by
        rw [List.filter_eq_nil_iff]
        intro q hq hpq
        rw [List.mem_flatten] at hq
        obtain ⟨blk, hblk, hqblk⟩ := hq
        rw [List.mem_map] at hblk
        obtain ⟨c2, hc2, hc2blk⟩ := hblk
        subst hc2blk
        have h1 : q.channel = c2.id := hmem c2 (List.mem_cons_of_mem _ hc2) q hqblk
        have h2 : q.channel = ch.id := hp q hpq
        have hmm : c2.id ∈ rest.map Channel.id := List.mem_map_of_mem Channel.id hc2
        rw [← h1, h2] at hmm
        exact hcid hmm
      rw [hrest, List.append_nil]
    · have hhead : (f c).filter p = [] := by
        rw [List.filter_eq_nil_iff]
        intro q hq hpq
        have h1 : q.channel = c.id := hmem c (List.mem_cons_self c rest) q hq
        have h2 : q.channel = ch.id := hp q hpq
        have hmm : ch.id ∈ rest.map Channel.id := List.mem_map_of_mem Channel.id hch
        rw [← h2, h1] at hmm
        exact hcid hmm
      rw [hhead, List.nil_append]
      exact ih (fun c2 hc2 => hmem c2 (List.mem_cons_of_mem _ hc2)) hndr ch hch hp

/-! ### Characterization of the merged document -/

theorem mergeXmltv_some {docs : List Doc} {d : Doc} (h : mergeXmltv docs = some d) :
    d = ⟨mergedChans docs, ((mergedChans docs).map (progBlock docs)).flatten⟩ := by
  cases docs with
  | nil => simp [mergeXmltv] at h
  | cons a ds => exact (Option.some.inj h).symm

theorem sorted_mergedChans (docs : List Doc) : List.Sorted nameLe (mergedChans docs) :=
  List.sorted_insertionSort nameLe (dedupChans docs)

theorem sorted_progBlock (docs : List Doc) (ch : Channel) :
    List.Sorted startLe (progBlock docs ch) :=
  List.sorted_insertionSort startLe ((allProgs docs).filter (chanPred ch.id))

theorem progBlock_filter_channel (docs : List Doc) (ch : Channel) :
    (progBlock docs ch).filter (chanPred ch.id) = progBlock docs ch :=
  List.filter_eq_self.2 (fun q hq => by simp [chanPred, progBlock_mem hq])

/-- Every programme in the merged output carries the (non-empty) id of some
merged channel. -/
theorem mergedProgs_channel_ne {docs : List Doc} {q : Programme}
    (hq : q ∈ ((mergedChans docs).map (progBlock docs)).flatten) : ¬ q.channel = "" := by
  rw [List.mem_flatten] at hq
  obtain ⟨blk, hblk, hqblk⟩ := hq
  rw [List.mem_map] at hblk
  obtain ⟨ch, hch, rfl⟩ := hblk
  rw [progBlock_mem hqblk]
  exact (goodChans_mergedChans docs).2 ch hch

theorem allProgs_single {d : Doc} (h : ∀ q ∈ d.programmes, ¬ q.channel = "") :
    allProgs [d] = d.programmes := by
  unfold allProgs
  simp only [List.map_cons, List.map_nil, List.flatten_cons, List.flatten_nil, List.append_nil]
  exact List.filter_eq_self.2 (fun q hq => by simp [h q hq])

theorem dedupChans_single {d : Doc} (h : goodChans d.channels) :
    dedupChans [d] = d.channels := by
  unfold dedupChans
  simp only [List.map_cons, List.map_nil, List.flatten_cons, List.flatten_nil, List.append_nil]
  simpa using foldl_addChan_eq d.channels [] (by simpa using h)

/-- Filtering the merged programme list by a predicate that only holds on one
merged channel's id keeps exactly that channel's block. -/
theorem mergedProgs_filter {docs : List Doc} {ch : Channel} (hch : ch ∈ mergedChans docs)
    (p : Programme → Bool) (hp : ∀ q, p q = true → q.channel = ch.id) :
    (((mergedChans docs).map (progBlock docs)).flatten).filter p =
      (progBlock docs ch).filter p :=
  filter_flatten_blocks (progBlock docs) p (mergedChans docs)
    (fun _ _ _ hq => progBlock_mem hq) (goodChans_mergedChans docs).1 ch hch hp

theorem chanPred_spec (cid : String) (q : Programme) :
    chanPred cid q = true → q.channel = cid := by
  simp [chanPred]

/-- Stability of the programme sort, specialized: filtering by a predicate
that pins the start key commutes with the start-sort. -/
theorem filter_insertionSort_start (p : Programme → Bool)
    (hp : ∀ x y, p x = true → p y = true → x.start = y.start) (l : List Programme) :
    (List.insertionSort startLe l).filter p = l.filter p :=
  filter_insertionSort Programme.start p hp l

/-- Stability of the channel sort, specialized: filtering by a predicate
that pins the name key commutes with the name-sort. -/
theorem filter_insertionSort_name (p : Channel → Bool)
    (hp : ∀ x y, p x = true → p y = true → chanName x = chanName y) (l : List Channel) :
    (List.insertionSort nameLe l).filter p = l.filter p :=
  filter_insertionSort chanName p hp l

/-- A time slot: same channel id and same start attribute. -/
def slotPred (cid s : String) : Programme → Bool := fun p => p.channel = cid ∧ p.start = s

theorem slotPred_channel {cid s : String} (q : Programme) :
    slotPred cid s q = true → q.channel = cid := by
  simp only [slotPred, decide_eq_true_eq, and_imp]
  intro h _
  exact h

theorem slotPred_start {cid s : String} (q : Programme) :
    slotPred cid s q = true → q.start = s := by
  simp only [slotPred, decide_eq_true_eq, and_imp]
  intro _ h
  exact h

/-- A channel-name test for the stability statement. -/
def namePred (k : String) : Channel → Bool := fun c => chanName c = k

/-! ### Concrete fragments from the specification's merge example -/

/-- First fragment of the specification example: channel C1 with one
programme A in the 10:00 slot. -/
def fragA : Doc :=
  ⟨[⟨"C1", ["Chan One"]⟩], [⟨"C1", "20240101100000", "A"⟩]⟩

/-- Second fragment of the specification example: channel C1 with programme B
in the same 10:00 slot and programme C in the 11:00 slot. -/
def fragB : Doc :=
  ⟨[⟨"C1", ["Chan One"]⟩],
   [⟨"C1", "20240101100000", "B"⟩, ⟨"C1", "20240101110000", "C"⟩]⟩

/-- The document the code actually produces for the example: all three
programmes are kept, the colliding pair in fragment order. -/
def mergedAB : Doc :=
  ⟨[⟨"C1", ["Chan One"]⟩],
   [⟨"C1", "20240101100000", "A"⟩, ⟨"C1", "20240101100000", "B"⟩,
    ⟨"C1", "20240101110000", "C"⟩]⟩

/-- C1 counterexample: on the specification's own example the merge keeps
both programmes of the colliding (channel, start) slot, so the merged result
is A, B, C and not the claimed A, C. -/
theorem c1_first_wins_dedup_cex :
    mergeXmltv [fragA, fragB] = some mergedAB ∧
      ((mergedAB.programmes.filter (slotPred "C1" "20240101100000")).length = 2 ∧
        ¬ mergedAB.programmes =
          [⟨"C1", "20240101100000", "A"⟩, ⟨"C1", "20240101110000", "C"⟩]) := by
  exact ⟨rfl, by decide, by decide⟩

/-- C1 amended: the merge performs no deduplication at all.  For every
channel of the merged document and every start time, the merged document
contains exactly the occurrences of that (channel, start) slot found across
all fragments, in fragment-arrival order; colliding entries are all
retained. -/
theorem c1_merge_retains_all_collisions {docs : List Doc} {d : Doc}
    (h : mergeXmltv docs = some d) {ch : Channel} (hch : ch ∈ d.channels) (s : String) :
    d.programmes.filter (slotPred ch.id s) = (allProgs docs).filter (slotPred ch.id s) := by
  have hd := mergeXmltv_some h
  have hchans : d.channels = mergedChans docs := by rw [hd]
  have hprogs : d.programmes = ((mergedChans docs).map (progBlock docs)).flatten := by rw [hd]
  have hch2 : ch ∈ mergedChans docs := hchans ▸ hch
  rw [hprogs, mergedProgs_filter hch2 (slotPred ch.id s) (fun q => slotPred_channel q)]
  have hsub : (progBlock docs ch).filter (slotPred ch.id s) =
      ((allProgs docs).filter (chanPred ch.id)).filter (slotPred ch.id s) :=
    filter_insertionSort_start (slotPred ch.id s)
      (fun x y hx hy => by rw [slotPred_start x hx, slotPred_start y hy]) _
  rw [hsub, List.filter_filter]
  apply List.filter_congr
  intro a _
  by_cases hpa : slotPred ch.id s a = true
  · simp [hpa, chanPred, slotPred_channel a hpa]
  · rw [Bool.not_eq_true] at hpa
    simp [hpa]

/-- C1 amended witness at the specification example: both 10:00 occurrences
survive into the merged document. -/
theorem c1_merge_retains_all_collisions_witness :
    mergedAB.programmes.filter (slotPred "C1" "20240101100000") =
      (allProgs [fragA, fragB]).filter (slotPred "C1" "20240101100000") :=
  @c1_merge_retains_all_collisions [fragA, fragB] mergedAB (by rfl)
    ⟨"C1", ["Chan One"]⟩ (by decide) "20240101100000"

/-- C4 confirmed: the merge is idempotent.  Merging the single document
produced by a merge reproduces that document: the channels are already
deduplicated and name-sorted and each channel's programmes are already
grouped and start-sorted, and the stable sorts leave sorted input
unchanged. -/
theorem c4_merge_idempotent {docs : List Doc} {d : Doc} (h : mergeXmltv docs = some d) :
    mergeXmltv [d] = some d := by
  have hchans : d.channels = mergedChans docs := by rw [mergeXmltv_some h]
  have hprogs : d.programmes = ((mergedChans docs).map (progBlock docs)).flatten := by
    rw [mergeXmltv_some h]
  have hgood : goodChans d.channels := by
    rw [hchans]; exact goodChans_mergedChans docs
  have hsorted : List.Sorted nameLe d.channels := by
    rw [hchans]; exact sorted_mergedChans docs
  have hchan_eq : mergedChans [d] = d.channels := by
    have h1 : dedupChans [d] = d.channels := dedupChans_single hgood
    calc mergedChans [d] = List.insertionSort nameLe (dedupChans [d]) := rfl
    _ = List.insertionSort nameLe d.channels := by rw [h1]
    _ = d.channels := hsorted.insertionSort_eq
  have hall : allProgs [d] = d.programmes :=
    allProgs_single (fun q hq => by
      rw [hprogs] at hq
      exact mergedProgs_channel_ne hq)
  have hblock : ∀ ch ∈ d.channels, progBlock [d] ch = progBlock docs ch := by
    intro ch hch
    have hch2 : ch ∈ mergedChans docs := hchans ▸ hch
    have h1 : progBlock [d] ch =
        List.insertionSort startLe ((allProgs [d]).filter (chanPred ch.id)) := rfl
    rw [h1, hall, hprogs]
    rw [mergedProgs_filter hch2 (chanPred ch.id) (chanPred_spec ch.id)]
    rw [progBlock_filter_channel]
    exact (sorted_progBlock docs ch).insertionSort_eq
  have hstep : mergeXmltv [d] =
      some ⟨mergedChans [d], ((mergedChans [d]).map (progBlock [d])).flatten⟩ := rfl
  rw [hstep, hchan_eq, List.map_congr_left hblock]
  have hfinal : (d.channels.map (progBlock docs)).flatten = d.programmes := by
    rw [hchans, ← hprogs]
  rw [hfinal]

/-- C4 witness: re-merging the merged specification example reproduces it. -/
theorem c4_merge_idempotent_witness : mergeXmltv [mergedAB] = some mergedAB :=
  @c4_merge_idempotent [fragA, fragB] mergedAB (by rfl)

/-- A document with two distinct channels carrying the same display name,
first seen in the order b then a. -/
def tieDoc : Doc := ⟨[⟨"b", ["X"]⟩, ⟨"a", ["X"]⟩], []⟩

/-- C8 counterexample: two channels with the equal display name X are emitted
in first-seen order b, a - the tie is not broken by the identifier, which
would give a, b.  The sort key at core.py line 160 is the casefolded name
alone and Python's stable sort keeps dict insertion order on ties. -/
theorem c8_tie_break_by_id_cex :
    (mergeXmltv [tieDoc]).map (fun d => d.channels.map Channel.id) = some ["b", "a"] ∧
      ¬ (mergeXmltv [tieDoc]).map (fun d => d.channels.map Channel.id) = some ["a", "b"] := by
  exact ⟨rfl, by decide⟩

/-- C8 amended: merged channels are sorted by the case-insensitive preferred
display name (falling back to the identifier when no non-empty name exists),
and channels with equal names keep their first-seen insertion order - the tie
is not broken by the identifier. -/
theorem c8_channels_sorted_stable {docs : List Doc} {d : Doc}
    (h : mergeXmltv docs = some d) :
    List.Sorted nameLe d.channels ∧
      ∀ k, d.channels.filter (namePred k) = (dedupChans docs).filter (namePred k) := by
  have hchans : d.channels = mergedChans docs := by rw [mergeXmltv_some h]
  constructor
  · rw [hchans]; exact sorted_mergedChans docs
  · intro k
    rw [hchans]
    exact filter_insertionSort_name (namePred k)
      (fun x y hx hy => by
        have hx2 : chanName x = k := by simpa [namePred] using hx
        have hy2 : chanName y = k := by simpa [namePred] using hy
        rw [hx2, hy2]) (dedupChans docs)

/-- C8 amended witness at the tie example: output is name-sorted and the
name-X channels keep their insertion order b, a. -/
theorem c8_channels_sorted_stable_witness :
    List.Sorted nameLe [(⟨"b", ["X"]⟩ : Channel), ⟨"a", ["X"]⟩] ∧
      [(⟨"b", ["X"]⟩ : Channel), ⟨"a", ["X"]⟩].filter (namePred "x") =
        (dedupChans [tieDoc]).filter (namePred "x") := by
  have h := @c8_channels_sorted_stable [tieDoc] ⟨[⟨"b", ["X"]⟩, ⟨"a", ["X"]⟩], []⟩ (by rfl)
  exact ⟨h.1, h.2 "x"⟩

/-! ### The chunked fetcher (zap2it.py lines 306-439) -/

/-- Upstream response to one request, as classified by the retry loop at
zap2it.py lines 370-413: a 200 whose body parses as JSON carrying a channel
list (modeled by the ids of its channels), a 200 with an unparseable body, a
429 or 5xx status, another non-200 status, or a requests exception. -/
inductive Resp
  | ok (chans : List String)
  | badJson
  | transient
  | otherStatus
  | netErr
  deriving DecidableEq, Repr

/-- Outcome of the per-window retry loop: data obtained; window given up
with the outer loop continuing (break at zap2it.py lines 411 and 413); or a
failure returned for the whole fetch (lines 377 and 383). -/
inductive WindowOutcome
  | gotData (chans : List String)
  | abandoned
  | fatalJson
  | fatalNet
  deriving DecidableEq, Repr

/-- The retry loop at zap2it.py lines 362-413 for one window.  The attempt
counter starts at 1.  A 429/5xx status or a network exception is retried
(after a backoff sleep, irrelevant here) while the attempt number is at most
maxRetries; once exhausted, a 429/5xx abandons the window (break, line 411)
whereas a network exception fails the whole fetch (return, line 377).  A 200
with an unparseable body fails the whole fetch at once (line 383); any other
status abandons the window (line 413).  The fuel argument only bounds the
recursion; maxRetries + 1 is always enough, since every retry requires
attempt to be at most maxRetries. -/
def runWindow (resp : Nat → Resp) (maxRetries : Nat) : Nat → Nat → WindowOutcome
  | _, 0 => .abandoned
  | attempt, fuel + 1 =>
    match resp attempt with
    | .ok cs => .gotData cs
    | .badJson => .fatalJson
    | .transient =>
      if attempt ≤ maxRetries then runWindow resp maxRetries (attempt + 1) fuel
      else .abandoned
    | .otherStatus => .abandoned
    | .netErr =>
      if attempt ≤ maxRetries then runWindow resp maxRetries (attempt + 1) fuel
      else .fatalNet

/-- Channel-id accumulation at zap2it.py lines 385-395: channels are keyed
by id in an insertion-ordered dict; the first occurrence is kept. -/
def addIds (acc : List String) (cs : List String) : List String :=
  cs.foldl (fun a c => if c ∈ a then a else a ++ [c]) acc

/-- Result of a whole fetch run: the returned success flag and message, the
indices of the windows that were requested at least once, and the collected
channel ids. -/
structure FetchOutcome where
  success : Bool
  message : String
  requested : List Nat
  channels : List String
  deriving DecidableEq, Repr

/-- The window loop of zap2it.py lines 358-419 plus the final no-data check
at lines 418-419.  Windows are processed in order; a window that yields data
merges its channel ids into the accumulator; an abandoned window is skipped
and the loop continues with the next one; a bad JSON body or an exhausted
network exception returns failure for the whole fetch immediately; after all
windows, an empty channel map is the no-channels failure, otherwise the
fetch succeeds.  The message strings follow the code (which also interpolates
the chunk number and exception text). -/
def runWindows (resp : Nat → Nat → Resp) (maxRetries : Nat) :
    List Nat → List Nat → List String → FetchOutcome
  | [], req, acc =>
    if acc = [] then ⟨false, "No channels found in response", req, acc⟩
    else ⟨true, "OK", req, acc⟩
  | w :: ws, req, acc =>
    match runWindow (resp w) maxRetries 1 (maxRetries + 1) with
    | .gotData cs => runWindows resp maxRetries ws (req ++ [w]) (addIds acc cs)
    | .abandoned => runWindows resp maxRetries ws (req ++ [w]) acc
    | .fatalJson => ⟨false, "Invalid JSON response", req ++ [w], acc⟩
    | .fatalNet => ⟨false, "Network error", req ++ [w], acc⟩

/-- The fetch of zap2it.py, restricted to its window/retry control flow: the
chunk size is fixed at 6 hours and the retry bound at 3 (lines 354-356), and
the windows are the offsets range(0, timespan, 6), indexed here by
position. -/
def fetchZap2itWindows (resp : Nat → Nat → Resp) (timespanHours : Nat) : FetchOutcome :=
  runWindows resp 3 (List.range ((timespanHours + 5) / 6)) [] []

/-- Responses in which the first window always returns 429 and every other
window succeeds with one channel. -/
def c2resp : Nat → Nat → Resp := fun w _ => if w = 0 then .transient else .ok ["c1"]

/-- C2 counterexample: with a 12-hour span (two windows) whose first window
answers 429 on every attempt, the fetch does not return a transient-error
failure and does not stop at the failing window: the second window is still
requested and the whole fetch succeeds with its data. -/
theorem c2_abort_on_exhausted_retries_cex :
    (fetchZap2itWindows c2resp 12).success = true ∧
      (fetchZap2itWindows c2resp 12).requested = [0, 1] := by
  exact ⟨rfl, rfl⟩

/-- A window whose every attempt yields a transient status is abandoned,
whatever the attempt counter and fuel. -/
theorem runWindow_transient (resp1 : Nat → Resp) (m : Nat)
    (h : ∀ a, resp1 a = Resp.transient) :
    ∀ fuel attempt, runWindow resp1 m attempt fuel = WindowOutcome.abandoned := by
  intro fuel
  induction fuel with
  | zero => intro attempt; rfl
  | succ fuel ih =>
    intro attempt
    show (match resp1 attempt with
      | .ok cs => WindowOutcome.gotData cs
      | .badJson => WindowOutcome.fatalJson
      | .transient =>
        if attempt ≤ m then runWindow resp1 m (attempt + 1) fuel
        else WindowOutcome.abandoned
      | .otherStatus => WindowOutcome.abandoned
      | .netErr =>
        if attempt ≤ m then runWindow resp1 m (attempt + 1) fuel
        else WindowOutcome.fatalNet) = WindowOutcome.abandoned
    rw [h attempt]
    by_cases ha : attempt ≤ m
    · simp only [if_pos ha]
      exact ih (attempt + 1)
    · simp only [if_neg ha]

/-- C2 amended: a window that exhausts its retries on transient responses
(429 or 5xx) is abandoned and the fetch continues with the remaining
windows; the failing window only adds itself to the requested list.  The
fetch as a whole fails only on a bad JSON body, an exhausted network
exception, or an empty channel map after all windows. -/
theorem c2_transient_window_skipped (resp : Nat → Nat → Resp) (m w : Nat)
    (ws req : List Nat) (acc : List String)
    (h : ∀ a, resp w a = Resp.transient) :
    runWindows resp m (w :: ws) req acc = runWindows resp m ws (req ++ [w]) acc := by
  show (match runWindow (resp w) m 1 (m + 1) with
    | .gotData cs => runWindows resp m ws (req ++ [w]) (addIds acc cs)
    | .abandoned => runWindows resp m ws (req ++ [w]) acc
    | .fatalJson => ⟨false, "Invalid JSON response", req ++ [w], acc⟩
    | .fatalNet => ⟨false, "Network error", req ++ [w], acc⟩) =
      runWindows resp m ws (req ++ [w]) acc
  rw [runWindow_transient (resp w) m h]

/-- C2 amended witness: on the concrete two-window run the all-429 first
window is skipped and processing continues with the second window. -/
theorem c2_transient_window_skipped_witness :
    runWindows c2resp 3 [0, 1] [] [] = runWindows c2resp 3 [1] [0] [] :=
  c2_transient_window_skipped c2resp 3 0 [1] [] [] (fun _ => rfl)

/-! ### The refresh orchestration (core.py lines 42-126) and configuration -/

/-- The configuration fields consumed by download-epg and the scheduler
(config.py lines 36-108).  lineupIds models the already-stripped result of
get-lineup-list; timestamps are modeled as integers in a single time unit
(the code stores an ISO datetime string and compares parsed datetimes), with
none for a missing last-refresh value. -/
structure Config where
  lineupIds : List String
  espnPlusEnabled : Bool
  mergeLineups : Bool
  outputPath : String
  autoRefreshEnabled : Bool
  refreshIntervalHours : Int
  lastRefresh : Option Int
  deriving DecidableEq, Repr

structure DownloadResult where
  success : Bool
  message : String
  deriving DecidableEq, Repr

/-- What is written to the output path: the merged document of all produced
files, or a byte copy of a single produced file. -/
inductive Publish
  | merged (files : List String)
  | copyOf (file : String)
  deriving DecidableEq, Repr

/-- Externally visible side effects of one download-epg run, in order.
publish is the completed single direct write of the output document to a
path (tree.write at core.py line 175 or shutil.copyfile at line 114);
partialWrite is such a write that raised after the target file had been
opened for writing, leaving the path truncated or partially overwritten;
rename models an atomic rename/replace of one path onto another, which
core.py never performs - the constructor exists so that the atomic-replace
publishing discipline is expressible; setLastRefresh is the last-refresh
update plus config.save() at core.py lines 123-124. -/
inductive Effect
  | publish (path : String) (what : Publish)
  | partialWrite (path : String)
  | rename (src dst : String)
  | setLastRefresh (t : Int)
  deriving DecidableEq, Repr

/-- Outcome of the publish step, that is, of the try blocks at core.py lines
105-109 (merge) and 113-117 (copy): the write of the document onto the
output path completes; or the operation raises before the output file has
been opened (for example ET.parse of an input file in the merge branch, or
opening the source file in the copy branch), leaving the previous document
intact; or the operation raises once the output file has already been
opened for writing, by which point the previous document is truncated. -/
inductive PubRes
  | ok
  | failBeforeWrite
  | failDuringWrite
  deriving DecidableEq, Repr

/-- Result of one upstream fetch as observed by download-epg: on success,
the path of the produced temp file; otherwise a message (a failed result
and a raised exception both become a failure of the run). -/
inductive FetchRes
  | ok (file : String)
  | fail (msg : String)
  deriving DecidableEq, Repr

/-- The Zap2it loop at core.py lines 55-75: fetch each configured lineup in
order, collecting (lineup id, produced path) pairs; the first failure aborts
the whole run with a failure result. -/
def collectZap : List String → (String → FetchRes) → Except String (List (String × String))
  | [], _ => .ok []
  | l :: ls, f =>
    match f l with
    | .ok file => (collectZap ls f).map (fun rest => (l, file) :: rest)
    | .fail m => .error ("Failed to fetch lineup " ++ l ++ ": " ++ m)

/-- The ESPN+ step at core.py lines 78-92: only runs when enabled, and a
failure is non-fatal - it simply contributes no file. -/
def espnPart (enabled : Bool) (espn : Option String) : List (String × String) :=
  if enabled then
    match espn with
    | some f => [("ESPN+", f)]
    | none => []
  else []

/-- The refresh run of core.py lines 42-126 (method download-epg), modeled
by its result, its side effects in order, and the updated configuration.
In order: the early guard for no configured sources (lines 47-49); the
sequential Zap2it fetches with first-failure abort (lines 55-75); the
best-effort ESPN+ fetch (lines 78-92); the no-data failure (lines 94-95);
then publishing - the merge of all produced files when merging is enabled
and more than one file was produced (lines 103-109), otherwise a byte copy
of the first produced file (lines 110-117) - as one direct write to the
output path, whose outcome is the pub argument: a raised merge/copy
exception is caught (lines 108-109 and 116-117) and returned as a failure,
but when it struck during the write the output path has already been
truncated, which the trace records as a partial write; and only after a
completed publish, the last-refresh update and save (lines 122-124).  Every
failure path other than a mid-write publish exception returns before any
effect. -/
def downloadEpg (cfg : Config) (fetchZap : String → FetchRes) (espn : Option String)
    (pub : PubRes) (now : Int) : DownloadResult × List Effect × Config :=
  if cfg.lineupIds = [] ∧ cfg.espnPlusEnabled = false then
    (⟨false, "No lineup IDs configured and ESPN+ is disabled"⟩, [], cfg)
  else
    match collectZap cfg.lineupIds fetchZap with
    | .error m => (⟨false, m⟩, [], cfg)
    | .ok zapFiles =>
      match zapFiles ++ espnPart cfg.espnPlusEnabled espn with
      | [] => (⟨false, "No EPG data was produced"⟩, [], cfg)
      | p :: rest =>
        let failMsg :=
          if cfg.mergeLineups = true ∧ 0 < rest.length then "Failed to merge XMLTV files"
          else "Failed to copy EPG file"
        match pub with
        | .ok =>
          let what :=
            if cfg.mergeLineups = true ∧ 0 < rest.length then
              Publish.merged ((p :: rest).map Prod.snd)
            else Publish.copyOf p.2
          (⟨true, "EPG saved to " ++ cfg.outputPath⟩,
           [Effect.publish cfg.outputPath what, Effect.setLastRefresh now],
           { cfg with lastRefresh := some now })
        | .failBeforeWrite => (⟨false, failMsg⟩, [], cfg)
        | .failDuringWrite =>
          (⟨false, failMsg⟩, [Effect.partialWrite cfg.outputPath], cfg)

/-- The atomic-replace publishing discipline the specification describes:
some temporary path distinct from the output receives the data and is then
renamed over the output path, and the output path is never written
directly. -/
def publishesAtomically (effs : List Effect) (out : String) : Prop :=
  (∃ tmp, ¬ tmp = out ∧ Effect.rename tmp out ∈ effs) ∧
    ∀ w, ¬ Effect.publish out w ∈ effs

/-- Case analysis of a download-epg run: a successful run performs exactly
one completed direct publish to the output path followed by the
last-refresh update and stores the new timestamp; a failed run leaves the
configuration untouched, and its trace is empty unless the failure was a
mid-write publish exception, in which case the trace is the single partial
write that truncated the output path. -/
theorem downloadEpg_cases (cfg : Config) (f : String → FetchRes) (espn : Option String)
    (pub : PubRes) (now : Int) :
    ((downloadEpg cfg f espn pub now).1.success = true ∧
      (∃ w, (downloadEpg cfg f espn pub now).2.1 =
        [Effect.publish cfg.outputPath w, Effect.setLastRefresh now]) ∧
      (downloadEpg cfg f espn pub now).2.2 = { cfg with lastRefresh := some now }) ∨
    ((downloadEpg cfg f espn pub now).1.success = false ∧
      ((downloadEpg cfg f espn pub now).2.1 = [] ∨
        (pub = PubRes.failDuringWrite ∧
          (downloadEpg cfg f espn pub now).2.1 = [Effect.partialWrite cfg.outputPath])) ∧
      (downloadEpg cfg f espn pub now).2.2 = cfg) := by
  unfold downloadEpg
  split
  · right; exact ⟨rfl, Or.inl rfl, rfl⟩
  · split
    · right; exact ⟨rfl, Or.inl rfl, rfl⟩
    · split
      · right; exact ⟨rfl, Or.inl rfl, rfl⟩
      · match pub with
        | .ok => left; exact ⟨rfl, ⟨_, rfl⟩, rfl⟩
        | .failBeforeWrite => right; exact ⟨rfl, Or.inl rfl, rfl⟩
        | .failDuringWrite => right; exact ⟨rfl, Or.inr ⟨rfl, rfl⟩, rfl⟩

/-- A configuration with one lineup, merging on, used as the concrete
successful run. -/
def cfgOne : Config := ⟨["L1"], false, true, "/out/zap2xml.xml", true, 24, none⟩

/-- A fetch in which every lineup succeeds with a temp file. -/
def fOk : String → FetchRes := fun l => .ok ("/tmp/" ++ l ++ ".xml")

/-- A configuration with no sources at all: its refresh always fails with
the no-sources message. -/
def cfgNoSources : Config := ⟨[], false, true, "/out/zap2xml.xml", true, 24, none⟩

/-- C3 counterexample: a concrete successful refresh publishes by writing
the output path directly; its effect trace contains no rename of a
temporary file onto the output, so the publish is not the claimed
atomic temporary-write-then-rename replace. -/
theorem c3_atomic_replace_cex :
    (downloadEpg cfgOne fOk none PubRes.ok 100).1.success = true ∧
      ¬ publishesAtomically (downloadEpg cfgOne fOk none PubRes.ok 100).2.1
        cfgOne.outputPath := by
  refine ⟨rfl, ?_⟩
  rintro ⟨⟨tmp, _, hmem⟩, _⟩
  have heffs : (downloadEpg cfgOne fOk none PubRes.ok 100).2.1 =
      [Effect.publish cfgOne.outputPath (Publish.copyOf "/tmp/L1.xml"),
       Effect.setLastRefresh 100] := rfl
  rw [heffs] at hmem
  simp at hmem

/-- C3 amended: a successful refresh publishes the document with a single
direct write to the output path, followed only by the timestamp update; no
temporary location and no rename are involved, so a reader of the output
path can observe the document mid-write. -/
theorem c3_publish_direct_write (cfg : Config) (f : String → FetchRes)
    (espn : Option String) (pub : PubRes) (now : Int)
    (h : (downloadEpg cfg f espn pub now).1.success = true) :
    (∃ w, (downloadEpg cfg f espn pub now).2.1 =
      [Effect.publish cfg.outputPath w, Effect.setLastRefresh now]) ∧
    ∀ a b, ¬ Effect.rename a b ∈ (downloadEpg cfg f espn pub now).2.1 := by
  rcases downloadEpg_cases cfg f espn pub now with ⟨_, ⟨w, h2⟩, _⟩ | ⟨h1, _, _⟩
  · refine ⟨⟨w, h2⟩, ?_⟩
    intro a b hmem
    rw [h2] at hmem
    simp at hmem
  · rw [h1] at h
    simp at h

/-- C3 amended witness: the concrete successful run performs no rename onto
the output path. -/
theorem c3_publish_direct_write_witness :
    ¬ Effect.rename "/tmp/t.xml" cfgOne.outputPath ∈
      (downloadEpg cfgOne fOk none PubRes.ok 100).2.1 :=
  (c3_publish_direct_write cfgOne fOk none PubRes.ok 100 (by rfl)).2
    "/tmp/t.xml" cfgOne.outputPath

/-- C6 counterexample: a refresh whose merge/copy write raises mid-write is
a failing refresh, yet its trace contains the partial write that truncated
the output path - the previously published document does not remain
unchanged on every failing refresh. -/
theorem c6_publish_failure_truncates_cex :
    (downloadEpg cfgOne fOk none PubRes.failDuringWrite 100).1.success = false ∧
      (downloadEpg cfgOne fOk none PubRes.failDuringWrite 100).2.1 =
        [Effect.partialWrite cfgOne.outputPath] ∧
      ¬ (downloadEpg cfgOne fOk none PubRes.failDuringWrite 100).2.1 = [] := by
  exact ⟨rfl, rfl, by decide⟩

/-- C6 amended: the last-refresh timestamp is updated and saved strictly
after the output document is published - the effect trace of a successful
run is exactly the completed publish followed by the timestamp update - and
no failing refresh ever records a timestamp or changes the configuration.
Failures that occur before the publish step (no sources, a lineup fetch
failure, zero fragments, or a merge/copy exception before the output file
is opened) leave the previous document untouched; but a merge/copy
exception during the write has already truncated the previous document, so
the untouched-on-failure guarantee holds only up to the publish step. -/
theorem c6_last_refresh_only_after_publish (cfg : Config) (f : String → FetchRes)
    (espn : Option String) (pub : PubRes) (now : Int) :
    ((downloadEpg cfg f espn pub now).1.success = true →
      (∃ w, (downloadEpg cfg f espn pub now).2.1 =
        [Effect.publish cfg.outputPath w, Effect.setLastRefresh now]) ∧
      (downloadEpg cfg f espn pub now).2.2 = { cfg with lastRefresh := some now }) ∧
    ((downloadEpg cfg f espn pub now).1.success = false →
      (downloadEpg cfg f espn pub now).2.2 = cfg ∧
      (∀ t, ¬ Effect.setLastRefresh t ∈ (downloadEpg cfg f espn pub now).2.1) ∧
      ((downloadEpg cfg f espn pub now).2.1 = [] ∨
        (pub = PubRes.failDuringWrite ∧
          (downloadEpg cfg f espn pub now).2.1 =
            [Effect.partialWrite cfg.outputPath]))) := by
  rcases downloadEpg_cases cfg f espn pub now with ⟨h1, h2, h3⟩ | ⟨h1, h2, h3⟩
  · refine ⟨fun _ => ⟨h2, h3⟩, fun hc => ?_⟩
    rw [h1] at hc
    simp at hc
  · refine ⟨fun hc => ?_, fun _ => ⟨h3, ?_, h2⟩⟩
    · rw [h1] at hc
      simp at hc
    · intro t hmem
      rcases h2 with h2 | ⟨_, h2⟩ <;> rw [h2] at hmem <;> simp at hmem

/-- C6 amended witness: the concrete no-sources refresh fails, leaves the
configuration unchanged, and its trace holds no timestamp update. -/
theorem c6_last_refresh_only_after_publish_witness :
    (downloadEpg cfgNoSources fOk none PubRes.ok 100).2.2 = cfgNoSources ∧
      ¬ Effect.setLastRefresh 100 ∈ (downloadEpg cfgNoSources fOk none PubRes.ok 100).2.1 :=
  ⟨((c6_last_refresh_only_after_publish cfgNoSources fOk none PubRes.ok 100).2 (by rfl)).1,
   ((c6_last_refresh_only_after_publish cfgNoSources fOk none PubRes.ok 100).2 (by rfl)).2.1 100⟩

/-- C10 confirmed: whenever merging is disabled or only one file was
produced, download-epg publishes a byte copy of the first produced file to
the output path (here with a completed write); any further produced files
(for example the ESPN+ fragment when merging is off) do not reach the
published document. -/
theorem c10_copy_first_file (cfg : Config) (f : String → FetchRes) (espn : Option String)
    (now : Int) (zapFiles : List (String × String)) (p : String × String)
    (rest : List (String × String))
    (hz : collectZap cfg.lineupIds f = .ok zapFiles)
    (hp : zapFiles ++ espnPart cfg.espnPlusEnabled espn = p :: rest)
    (hm : cfg.mergeLineups = false ∨ rest = []) :
    (downloadEpg cfg f espn PubRes.ok now).2.1 =
      [Effect.publish cfg.outputPath (Publish.copyOf p.2), Effect.setLastRefresh now] := by
  have hguard : ¬ (cfg.lineupIds = [] ∧ cfg.espnPlusEnabled = false) := by
    rintro ⟨h1, h2⟩
    rw [h1] at hz
    rw [h2] at hp
    simp only [collectZap] at hz
    have hzf : zapFiles = [] := by
      cases hz
      rfl
    rw [hzf] at hp
    simp [espnPart] at hp
  have hcond : ¬ (cfg.mergeLineups = true ∧ 0 < rest.length) := by
    rcases hm with hm | hm
    · rintro ⟨hm2, _⟩
      rw [hm] at hm2
      exact absurd hm2 (by decide)
    · rintro ⟨_, hm2⟩
      rw [hm] at hm2
      simp at hm2
  unfold downloadEpg
  rw [if_neg hguard, hz]
  show (match zapFiles ++ espnPart cfg.espnPlusEnabled espn with
    | [] => ((⟨false, "No EPG data was produced"⟩ : DownloadResult), ([] : List Effect), cfg)
    | p :: rest =>
      ((⟨true, "EPG saved to " ++ cfg.outputPath⟩ : DownloadResult),
       [Effect.publish cfg.outputPath
          (if cfg.mergeLineups = true ∧ 0 < rest.length then
            Publish.merged ((p :: rest).map Prod.snd)
          else Publish.copyOf p.2), Effect.setLastRefresh now],
       { cfg with lastRefresh := some now })).2.1 = _
  rw [hp]
  show [Effect.publish cfg.outputPath
      (if cfg.mergeLineups = true ∧ 0 < rest.length then
        Publish.merged ((p :: rest).map Prod.snd)
      else Publish.copyOf p.2), Effect.setLastRefresh now] = _
  rw [if_neg hcond]

/-- A configuration with one lineup plus ESPN+ enabled but merging disabled:
two files are produced, only the first is published. -/
def cfgNoMerge : Config := ⟨["L1"], true, false, "/out/zap2xml.xml", true, 24, none⟩

/-- C10 witness: with merging disabled and both a lineup file and an ESPN+
file produced, exactly the lineup file is copied to the output; the ESPN+
fragment is dropped. -/
theorem c10_copy_first_file_witness :
    (downloadEpg cfgNoMerge fOk (some "/tmp/espn.xml") PubRes.ok 100).2.1 =
      [Effect.publish cfgNoMerge.outputPath (Publish.copyOf "/tmp/L1.xml"),
       Effect.setLastRefresh 100] :=
  c10_copy_first_file cfgNoMerge fOk (some "/tmp/espn.xml") 100
    [("L1", "/tmp/L1.xml")] ("L1", "/tmp/L1.xml") [("ESPN+", "/tmp/espn.xml")]
    (by rfl) (by rfl) (Or.inl rfl)

/-! ### The scheduler (scheduler.py) -/

/-- The due-check of scheduler.py lines 72-86 (the method with the
underscore prefix, should-refresh): false when auto refresh is disabled;
true when no last-refresh timestamp is stored; otherwise true exactly when
now has reached last-refresh plus the configured interval.  The code's
ValueError branch for an unparseable stored string (which also returns
true) is outside this model: lastRefresh none covers only a missing
value. -/
def shouldRefresh (cfg : Config) (now : Int) : Bool :=
  if cfg.autoRefreshEnabled = false then false
  else
    match cfg.lastRefresh with
    | none => true
    | some last => decide (now ≥ last + cfg.refreshIntervalHours)

/-- C5 confirmed: the due-check returns false when auto refresh is disabled;
true when no prior refresh timestamp exists; and otherwise true exactly when
now has reached the last refresh plus the interval. -/
theorem c5_should_refresh_spec (cfg : Config) (now : Int) :
    (cfg.autoRefreshEnabled = false → shouldRefresh cfg now = false) ∧
    (cfg.autoRefreshEnabled = true → cfg.lastRefresh = none →
      shouldRefresh cfg now = true) ∧
    ∀ last, cfg.autoRefreshEnabled = true → cfg.lastRefresh = some last →
      (shouldRefresh cfg now = true ↔ now ≥ last + cfg.refreshIntervalHours) := by
  refine ⟨?_, ?_, ?_⟩
  · intro h
    simp [shouldRefresh, h]
  · intro h1 h2
    simp [shouldRefresh, h1, h2]
  · intro last h1 h2
    simp [shouldRefresh, h1, h2]

/-- C5 witness: disabled gives false; enabled with no timestamp gives true;
enabled with a timestamp is due exactly at the interval boundary. -/
theorem c5_should_refresh_spec_witness :
    shouldRefresh ⟨[], false, true, "/out/zap2xml.xml", false, 24, none⟩ 100 = false ∧
      shouldRefresh ⟨[], false, true, "/out/zap2xml.xml", true, 24, none⟩ 100 = true ∧
      (shouldRefresh ⟨[], false, true, "/out/zap2xml.xml", true, 24, some 80⟩ 100 = true ↔
        (100 : Int) ≥ 80 + 24) :=
  ⟨(c5_should_refresh_spec _ 100).1 rfl,
   (c5_should_refresh_spec _ 100).2.1 rfl rfl,
   (c5_should_refresh_spec _ 100).2.2 80 rfl rfl⟩

/-- One iteration of the scheduler loop body (scheduler.py lines 61-64
together with the refresh at lines 88-107, which calls download-epg): when
the due-check holds, run the refresh and adopt its updated configuration
and effects; otherwise do nothing.  On a failed refresh, do-refresh only
logs and invokes the completion callback; it writes no timestamp. -/
def schedulerTick (cfg : Config) (f : String → FetchRes) (espn : Option String)
    (pub : PubRes) (now : Int) : Config × List Effect :=
  if shouldRefresh cfg now then
    ((downloadEpg cfg f espn pub now).2.2, (downloadEpg cfg f espn pub now).2.1)
  else (cfg, [])

/-- C7 counterexample: a due but failing refresh attempt (here: a
configuration with no sources) records no timestamp at all, so one tick
later the due-check is true again - nothing prevents immediate
re-triggering after a failed attempt. -/
theorem c7_retrigger_after_failure_cex :
    shouldRefresh cfgNoSources 100 = true ∧
      (downloadEpg cfgNoSources fOk none PubRes.ok 100).1.success = false ∧
      (schedulerTick cfgNoSources fOk none PubRes.ok 100).1 = cfgNoSources ∧
      shouldRefresh (schedulerTick cfgNoSources fOk none PubRes.ok 100).1 101 = true := by
  exact ⟨rfl, rfl, rfl, rfl⟩

/-- C7 amended: only a successful refresh records a timestamp.  After a due
and successful attempt at some time, the due-check stays false at every
tick before that time plus the interval; after a due but failed attempt the
configuration is completely unchanged, so the old timestamp alone decides
the next tick - in particular a failing state stays due and re-triggers. -/
theorem c7_retrigger_spacing (cfg : Config) (f : String → FetchRes)
    (espn : Option String) (pub : PubRes) (now now2 : Int)
    (hdue : shouldRefresh cfg now = true)
    (h2 : now2 < now + cfg.refreshIntervalHours) :
    ((downloadEpg cfg f espn pub now).1.success = true →
      shouldRefresh (schedulerTick cfg f espn pub now).1 now2 = false) ∧
    ((downloadEpg cfg f espn pub now).1.success = false →
      (schedulerTick cfg f espn pub now).1 = cfg) := by
  have htick : schedulerTick cfg f espn pub now =
      ((downloadEpg cfg f espn pub now).2.2, (downloadEpg cfg f espn pub now).2.1) := by
    simp [schedulerTick, hdue]
  rcases downloadEpg_cases cfg f espn pub now with ⟨h1, _, h3⟩ | ⟨h1, _, h3⟩
  · refine ⟨fun _ => ?_, fun hc => ?_⟩
    · rw [htick]
      show shouldRefresh (downloadEpg cfg f espn pub now).2.2 now2 = false
      rw [h3]
      show (if cfg.autoRefreshEnabled = false then false
        else decide (now2 ≥ now + cfg.refreshIntervalHours)) = false
      by_cases hen : cfg.autoRefreshEnabled = false
      · simp [hen]
      · rw [if_neg hen]
        simp only [decide_eq_false_iff_not]
        omega
    · rw [h1] at hc
      simp at hc
  · refine ⟨fun hc => ?_, fun _ => ?_⟩
    · rw [h1] at hc
      simp at hc
    · rw [htick]
      exact h3

/-- C7 amended witness: the concrete no-sources attempt is due, fails, and
leaves the configuration unchanged. -/
theorem c7_retrigger_spacing_witness :
    (schedulerTick cfgNoSources fOk none PubRes.ok 100).1 = cfgNoSources :=
  (c7_retrigger_spacing cfgNoSources fOk none PubRes.ok 100 101 (by rfl) (by decide)).2
    (by rfl)

/-! ### Concurrency of refresh triggers (scheduler.py lines 59-70 and
88-112) -/

/-- Number of concurrently executing refreshes, that is, running executions
of the method do-refresh of scheduler.py lines 88-107. -/
structure RunState where
  inFlight : Nat
  deriving DecidableEq, Repr

/-- Events of the scheduler's concurrency model.  trigger is a call of
refresh-now (scheduler.py lines 109-112), which unconditionally starts a
new daemon thread executing do-refresh - the method holds no lock, checks
no in-progress flag, and never waits or declines - or equivalently the
scheduler loop entering do-refresh at line 64, which is likewise unguarded.
finish is a running refresh completing. -/
inductive SchedEvent
  | trigger
  | finish
  deriving DecidableEq, Repr

/-- Effect of one event on the number of in-flight refreshes, read off the
code: a trigger always adds one concurrent execution, a finish retires
one. -/
def stepRun (s : RunState) : SchedEvent → RunState
  | .trigger => ⟨s.inFlight + 1⟩
  | .finish => ⟨s.inFlight - 1⟩

/-- The in-flight count after a sequence of events. -/
def runEvents (s : RunState) (evs : List SchedEvent) : RunState :=
  evs.foldl stepRun s

/-- C9 counterexample: from the idle state, a second refresh trigger
arriving while the first refresh is still in flight yields two refreshes
executing at once - the second caller neither waits nor is declined, and
the claimed at-most-one bound is violated. -/
theorem c9_serialized_refresh_cex :
    (runEvents ⟨0⟩ [SchedEvent.trigger, SchedEvent.trigger]).inFlight = 2 ∧
      ¬ (runEvents ⟨0⟩ [SchedEvent.trigger, SchedEvent.trigger]).inFlight ≤ 1 := by
  exact ⟨rfl, by decide⟩

theorem runEvents_replicate_trigger :
    ∀ n k, runEvents ⟨k⟩ (List.replicate n SchedEvent.trigger) = ⟨k + n⟩ := by
  intro n
  induction n with
  | zero => intro k; rfl
  | succ n ih =>
    intro k
    rw [List.replicate_succ]
    show runEvents ⟨k + 1⟩ (List.replicate n SchedEvent.trigger) = ⟨k + (n + 1)⟩
    rw [ih (k + 1)]
    congr 1
    omega

/-- C9 amended: refresh execution is not serialized at all.  Every trigger
(a refresh-now call or the loop entering do-refresh) unconditionally spawns
one more concurrent refresh, so any number of refreshes can be in flight at
once: n consecutive triggers from the idle state leave n refreshes
executing concurrently, each of which will write to the publish
destination. -/
theorem c9_unbounded_concurrent_refreshes (n : Nat) :
    runEvents ⟨0⟩ (List.replicate n SchedEvent.trigger) = ⟨n⟩ := by
  have h := runEvents_replicate_trigger n 0
  simpa using h

end Zap2xml
